import Mathlib

/-!
Verification of the noexiit stepper motion-control sketches.

The embedding below models the Arduino sketches of the repository:
`code/beetle_toucher/beetle_toucher.ino` (the authoritative variant: `rotate`,
`step`, `setDirection`, `read_float`, `setup`, `loop`) together with the
spec-level motion executor (`move_to`, `degrees_to_microsteps`,
`microsteps_to_degrees`) whose implementation lives in the external autostep
`StepperDriver` library and is therefore modelled from the specification.

Angles are rationals (the C `float` computations are modelled in exact
arithmetic, matching the real-valued formulas of the specification), microstep
positions are integers, pulse counts are naturals.  The 16-bit `unsigned int`
of the AVR target is modelled by explicit reduction modulo 2^16.
-/

/-- Arduino's `round` macro: `(x)>=0 ? (long)((x)+0.5) : (long)((x)-0.5)`,
i.e. rounding half away from zero (the `(long)` cast truncates toward zero). -/
def cround (q : ℚ) : ℤ :=
  if 0 ≤ q then ⌊q + 1 / 2⌋ else ⌈q - 1 / 2⌉

namespace BeetleToucher

/-- Global `int microstepping = 32;` of `beetle_toucher.ino`. -/
def microstepping : ℕ := 32

/-- The value `round(2.4 * abs(deg_increm) / 0.9 * microstepping)` computed in
`rotate` (`beetle_toucher.ino` line 72) as the nonnegative `long` result,
before the converting assignment into the 16-bit `unsigned int step_increm`. -/
def rawCount (deg_increm : ℚ) : ℕ :=
  (cround (2.4 * |deg_increm| / 0.9 * (microstepping : ℚ))).toNat

/-- `unsigned int step_increm = round(...)`: the `long` value reduced into the
16-bit `unsigned int` of the AVR target. -/
def step_increm (deg_increm : ℚ) : ℕ :=
  rawCount deg_increm % 2 ^ 16

/-- Iterations of `for (unsigned int i = 0; i <= s; i++) { step(); ... }` with a
16-bit `i`: the body runs `s + 1` times when the loop terminates (`s < 65535`);
when `s = 65535` the condition `i <= s` always holds (`i` wraps) and the loop
never terminates, modelled as `none`. -/
def loopPulses (s : ℕ) : Option ℕ :=
  if s + 1 < 2 ^ 16 then some (s + 1) else none

/-- `rotate(deg_increm)` (`beetle_toucher.ino` lines 68-78): writes
`deg_increm > 0` to the DIR line via `setDirection`, then runs the step loop.
Returns the DIR value and the number of STEP pulses emitted (`none` when the
loop does not terminate). -/
def rotate (deg_increm : ℚ) : Bool × Option ℕ :=
  (decide (0 < deg_increm), loopPulses (step_increm deg_increm))

end BeetleToucher

/-- Decay modes supported by the HighPowerStepperDriver library, as used in
`setup` (`sd.setDecayMode(HPSDDecayMode::AutoMixed)`). -/
inductive DecayMode where
  | autoMixed
deriving DecidableEq

/-- One register-programming call on the DRV8711 driver chip, as issued through
the `HighPowerStepperDriver` object `sd` in `setup`. -/
inductive DriverOp where
  | resetSettings
  | clearStatus
  | setDecayMode (m : DecayMode)
  | setCurrentMilliamps (ma : ℕ)
  | setStepMode (n : ℕ)
  | enableDriver
deriving DecidableEq

/-- Whether a driver operation sets the microstep resolution. -/
def DriverOp.isSetStepMode : DriverOp → Bool
  | .setStepMode _ => true
  | _ => false

namespace BeetleToucher

/-- The `setStepMode` calls issued by the if-else-if chain of `setup`
(`beetle_toucher.ino` lines 142-160): one call when `microstepping` matches a
supported value, and no call at all otherwise (no final `else` branch). -/
def setupStepModeOps (m : ℕ) : List DriverOp :=
  if m = 1 then [.setStepMode 1]
  else if m = 2 then [.setStepMode 2]
  else if m = 4 then [.setStepMode 4]
  else if m = 8 then [.setStepMode 8]
  else if m = 16 then [.setStepMode 16]
  else if m = 32 then [.setStepMode 32]
  else if m = 64 then [.setStepMode 64]
  else if m = 128 then [.setStepMode 128]
  else if m = 256 then [.setStepMode 256]
  else []

/-- The chip-register programming sequence issued by `setup`
(`beetle_toucher.ino` lines 130-163), in call order: `sd.resetSettings()`,
`sd.clearStatus()`, `sd.setDecayMode(AutoMixed)`,
`sd.setCurrentMilliamps36v4(2400)`, the `setStepMode` chain, then
`sd.enableDriver()`.  (The preceding `SPI.begin`, `setChipSelectPin`, pin-mode
writes and the 1 ms power-up delay configure the MCU side, not chip
registers.) -/
def setupDriverOps (m : ℕ) : List DriverOp :=
  [.resetSettings, .clearStatus, .setDecayMode .autoMixed, .setCurrentMilliamps 2400]
    ++ setupStepModeOps m ++ [.enableDriver]

/-- `read_float()` (`beetle_toucher.ino` lines 35-45): consumes four bytes from
the serial stream into `u.b[0] .. u.b[3]` of the union and returns the 32-bit
word `b0 + 2^8*b1 + 2^16*b2 + 2^24*b3` (the IEEE-754 bit pattern of the float;
`b[0]` is the lowest-addressed, least-significant byte on the little-endian
AVR), together with the remaining stream.  With fewer than four bytes the
result is left unmodelled (`none`). -/
def read_float : List ℕ → Option (ℕ × List ℕ)
  | b0 :: b1 :: b2 :: b3 :: rest =>
      some (b0 + 2 ^ 8 * b1 + 2 ^ 16 * b2 + 2 ^ 24 * b3, rest)
  | _ => none

/-- One iteration of `loop()` (`beetle_toucher.ino` lines 201-204):
`curr_mm_increm = read_float(); curr_deg_increm = read_float();
lineate(curr_mm_increm); rotate(curr_deg_increm);`.  Returns the two words
read (in that order), the remaining stream, and the list of lines printed to
serial during the cycle — which is empty: the active body of `loop` contains
no `Serial.print` call. -/
def loopCycle (input : List ℕ) : Option ((ℕ × ℕ) × List ℕ × List String) :=
  match read_float input with
  | none => none
  | some (mm, r1) =>
    match read_float r1 with
    | none => none
    | some (deg, r2) => some ((mm, deg), r2, [])

/-- The serial lines emitted by one `loop()` cycle (empty when the cycle
cannot complete). -/
def cycleSerialOut (input : List ℕ) : List String :=
  ((loopCycle input).map fun r => r.2.2).getD []

end BeetleToucher

namespace SpecModel

/-- Axis constants of the specification (§3): `fullsteps_per_rev`,
`microstep_multiplier`, `gear_ratio`. -/
structure AxisConfig where
  fullsteps_per_rev : ℕ
  microstep_multiplier : ℕ
  gear_ratio : ℚ
deriving DecidableEq

/-- The chip's discrete supported microstep multipliers (§3), which are also
exactly the values the `setup` if-chain of `beetle_toucher.ino` handles. -/
def supportedMicrosteps : List ℕ := [1, 2, 4, 8, 16, 32, 64, 128, 256]

/-- A valid `AxisConfig` (§3, §4.1): positive full-step count, supported
multiplier, positive gear ratio. -/
def AxisConfig.valid (c : AxisConfig) : Prop :=
  0 < c.fullsteps_per_rev ∧ c.microstep_multiplier ∈ supportedMicrosteps ∧ 0 < c.gear_ratio

instance : DecidablePred AxisConfig.valid := fun c => by
  unfold AxisConfig.valid
  infer_instance

/-- `microsteps_per_rev = fullsteps_per_rev * microstep_multiplier` (§3). -/
def microsteps_per_rev (c : AxisConfig) : ℕ :=
  c.fullsteps_per_rev * c.microstep_multiplier

/-- Modelled from the spec: `degrees_to_microsteps(deg) = round(deg *
gear_ratio / 360 * microsteps_per_rev)` (§4.1).  The implementation lives in
the external autostep `StepperDriver` library, which is absent from this
repository's sources (only its caller `arduino_code.ino` is present). -/
def degrees_to_microsteps (c : AxisConfig) (deg : ℚ) : ℤ :=
  cround (deg * c.gear_ratio / 360 * (microsteps_per_rev c : ℚ))

/-- Modelled from the spec: the inverse conversion `microsteps_to_degrees(us)`
(§4.1), a pure rescaling with no rounding.  Also absent from this repository's
sources. -/
def microsteps_to_degrees (c : AxisConfig) (us : ℤ) : ℚ :=
  (us : ℚ) * 360 / (c.gear_ratio * (microsteps_per_rev c : ℚ))

/-- Axis state owned by the Motion Executor (§3). -/
structure AxisState where
  position_microsteps : ℤ
  is_moving : Bool
deriving DecidableEq

/-- A fresh `Enabled(Idle)` state: position zero (cf. `set_position(0.0)` in
`arduino_code.ino`'s `setup`), not moving. -/
def freshIdle : AxisState := ⟨0, false⟩

/-- Position after emitting `n` pulses one at a time, the position updated by
`dir` (±1) as each step retires (§4.3: incremental update, not one final
write). -/
def pulseLoop (dir : ℤ) : ℕ → ℤ → ℤ
  | 0, p => p
  | n + 1, p => pulseLoop dir n (p + dir)

/-- Modelled from the spec: `move_to(target_degrees)` (§4.3) computes
`target_microsteps = degrees_to_microsteps(target_degrees)`, computes `delta =
target_microsteps - position_microsteps`, returns immediately when `delta ==
0`, and otherwise emits `abs(delta)` pulses in direction `sign(delta)`,
updating the position per pulse; `is_moving` is false again on return.
Returns the new state and the number of emitted pulses.  The implementation
(autostep `StepperDriver`) is absent from this repository's sources. -/
def move_to (c : AxisConfig) (s : AxisState) (target_degrees : ℚ) : AxisState × ℕ :=
  let target := degrees_to_microsteps c target_degrees
  let delta := target - s.position_microsteps
  if delta = 0 then (s, 0)
  else
    ({ position_microsteps :=
         pulseLoop (if 0 < delta then 1 else -1) delta.natAbs s.position_microsteps,
       is_moving := false }, delta.natAbs)

end SpecModel

/-- The axis constants of `beetle_toucher.ino`'s `rotate`: gear ratio 2.4, a
0.9°-per-full-step motor (400 full steps per revolution), microstepping 32. -/
def btAxisConfig : SpecModel.AxisConfig := ⟨400, 32, 2.4⟩

/-- The axis constants named in the spec's §8 sequence test:
`fullsteps_per_rev=200`, `microstep_multiplier=16`, `gear_ratio=2.4`. -/
def seqAxisConfig : SpecModel.AxisConfig := ⟨200, 16, 2.4⟩

/-- An edge or level change on the STEP/DIR electrical interface. -/
inductive PinEvent where
  | stepHigh
  | stepLow
  | dirWrite (d : Bool)
deriving DecidableEq

/-- One primitive of the sketches' pin-toggling code: a `digitalWrite` (modelled
as instantaneous) or a `delayMicroseconds` (in nanoseconds). -/
inductive PinAction where
  | write (e : PinEvent)
  | delayNs (n : ℕ)
deriving DecidableEq

/-- The events of an action list, each paired with its start time in
nanoseconds (writes take no modelled time; delays advance the clock). -/
def timedEvents : List PinAction → ℕ → List (ℕ × PinEvent)
  | [], _ => []
  | .write e :: rest, t => (t, e) :: timedEvents rest t
  | .delayNs n :: rest, t => timedEvents rest (t + n)

/-- Total duration in nanoseconds of an action list. -/
def durationNs : List PinAction → ℕ
  | [] => 0
  | .write _ :: rest => durationNs rest
  | .delayNs n :: rest => n + durationNs rest

namespace BeetleToucher

/-- `step()` (`beetle_toucher.ino` lines 49-56): STEP high,
`delayMicroseconds(3)`, STEP low, `delayMicroseconds(3)`. -/
def stepActions : List PinAction :=
  [.write .stepHigh, .delayNs 3000, .write .stepLow, .delayNs 3000]

/-- `setDirection(dir)` (`beetle_toucher.ino` lines 60-66):
`delayMicroseconds(1)`, write DIR, `delayMicroseconds(1)`. -/
def setDirectionActions (d : Bool) : List PinAction :=
  [.delayNs 1000, .write (.dirWrite d), .delayNs 1000]

/-- One iteration of the `rotate` step loop: `step();
delayMicroseconds(StepPeriodUs)` with `StepPeriodUs = 100`. -/
def pulseActions : List PinAction :=
  stepActions ++ [.delayNs 100000]

/-- The pin-level trace of `rotate(deg_increm)` when its loop runs `n` times:
`setDirection(deg_increm > 0)` followed by `n` repetitions of the step-loop
body (`n = step_increm + 1` when the loop terminates, cf. `loopPulses`). -/
def rotateActions (d : Bool) (n : ℕ) : List PinAction :=
  setDirectionActions d ++ (List.replicate n pulseActions).flatten

end BeetleToucher

/-- The step events of `n` pulses starting at time `t` (ns): pulse `i` raises
STEP at `t + 106000*i` and lowers it exactly 3000 ns later. -/
def stepEvtList : ℕ → ℕ → List (ℕ × PinEvent)
  | 0, _ => []
  | n + 1, t => (t, .stepHigh) :: (t + 3000, .stepLow) :: stepEvtList n (t + 106000)

theorem cround_nonneg {q : ℚ} (h : 0 ≤ q) : 0 ≤ cround q := by
  unfold cround
  rw [if_pos h]
  exact Int.floor_nonneg.mpr (by linarith)

theorem cround_neg (q : ℚ) : cround (-q) = -cround q := by
  rcases lt_trichotomy q 0 with hq | hq | hq
  · unfold cround
    rw [if_pos (by linarith), if_neg (by linarith)]
    have : -q + 1 / 2 = -(q - 1 / 2) := by ring
    rw [this, Int.floor_neg]
  · subst hq
    norm_num [cround]
  · unfold cround
    rw [if_neg (by linarith), if_pos (by linarith)]
    have : -q - 1 / 2 = -(q + 1 / 2) := by ring
    rw [this, Int.ceil_neg]

theorem abs_cround_sub_le (q : ℚ) : |(cround q : ℚ) - q| ≤ 1 / 2 := by
  rcases le_or_lt 0 q with hq | hq
  · unfold cround
    rw [if_pos hq]
    rw [abs_le]
    constructor
    · have := Int.lt_floor_add_one (q + 1 / 2)
      push_cast at this ⊢
      linarith
    · have := Int.floor_le (q + 1 / 2)
      push_cast at this ⊢
      linarith
  · have h1 : cround q = -cround (-q) := by
      rw [cround_neg, neg_neg]
    rw [h1]
    push_cast
    have h2 : |-((cround (-q) : ℚ)) - q| = |(cround (-q) : ℚ) - -q| := by
      rw [← abs_neg]
      congr 1
      ring
    rw [h2]
    have hnq : 0 ≤ -q := by linarith
    unfold cround
    rw [if_pos hnq]
    rw [abs_le]
    constructor
    · have := Int.lt_floor_add_one (-q + 1 / 2)
      push_cast at this ⊢
      linarith
    · have := Int.floor_le (-q + 1 / 2)
      push_cast at this ⊢
      linarith

theorem natAbs_cround (q : ℚ) : (cround q).natAbs = (cround |q|).toNat := by
  rcases le_or_lt 0 q with hq | hq
  · rw [abs_of_nonneg hq]
    have := cround_nonneg hq
    omega
  · rw [abs_of_neg hq]
    have h1 : cround q = -cround (-q) := by rw [cround_neg, neg_neg]
    have h2 : 0 ≤ cround (-q) := cround_nonneg (by linarith)
    rw [h1]
    omega

namespace SpecModel

theorem pulseLoop_eq (dir : ℤ) : ∀ (n : ℕ) (p : ℤ), pulseLoop dir n p = p + dir * n
  | 0, p => by simp [pulseLoop]
  | n + 1, p => by
    rw [pulseLoop, pulseLoop_eq dir n (p + dir)]
    push_cast
    ring

/-- §4.3: after `move_to`, the position equals the target in microsteps —
absolute positioning, independent of the prior position. -/
theorem move_to_position (c : AxisConfig) (s : AxisState) (t : ℚ) :
    ((move_to c s t).1).position_microsteps = degrees_to_microsteps c t := by
  simp only [move_to]
  by_cases h : degrees_to_microsteps c t - s.position_microsteps = 0
  · rw [if_pos h]
    show s.position_microsteps = _
    omega
  · rw [if_neg h]
    show pulseLoop _ _ _ = _
    rw [pulseLoop_eq]
    by_cases hpos : 0 < degrees_to_microsteps c t - s.position_microsteps
    · rw [if_pos hpos]
      omega
    · rw [if_neg hpos]
      omega

theorem supported_pos {m : ℕ} (h : m ∈ supportedMicrosteps) : 0 < m := by
  simp only [supportedMicrosteps, List.mem_cons, List.not_mem_nil, or_false] at h
  rcases h with h | h | h | h | h | h | h | h | h <;> omega

end SpecModel

theorem timedEvents_append (a b : List PinAction) (t : ℕ) :
    timedEvents (a ++ b) t = timedEvents a t ++ timedEvents b (t + durationNs a) := by
  induction a generalizing t with
  | nil => simp [timedEvents, durationNs]
  | cons x rest ih =>
    cases x with
    | write e =>
      simp only [List.cons_append, timedEvents, durationNs]
      rw [List.append_eq, ih]
    | delayNs n =>
      simp only [List.cons_append, timedEvents, durationNs]
      rw [List.append_eq, ih, Nat.add_assoc]

theorem timedEvents_pulses (n : ℕ) (t : ℕ) :
    timedEvents (List.replicate n BeetleToucher.pulseActions).flatten t = stepEvtList n t := by
  induction n generalizing t with
  | zero => simp [timedEvents, stepEvtList]
  | succ m ih =>
    rw [List.replicate_succ, List.flatten_cons, timedEvents_append, ih]
    simp [BeetleToucher.pulseActions, BeetleToucher.stepActions, timedEvents, durationNs,
      stepEvtList]

theorem rotate_trace (d : Bool) (n : ℕ) :
    timedEvents (BeetleToucher.rotateActions d n) 0
      = (1000, PinEvent.dirWrite d) :: stepEvtList n 2000 := by
  rw [BeetleToucher.rotateActions, timedEvents_append, timedEvents_pulses]
  simp [BeetleToucher.setDirectionActions, timedEvents, durationNs]

theorem stepEvtList_all_ge (c : ℕ) :
    ∀ (n t : ℕ), c ≤ t → ((stepEvtList n t).all fun p => decide (c ≤ p.1)) = true
  | 0, t, _ => by simp [stepEvtList]
  | n + 1, t, h => by
    simp only [stepEvtList, List.all_cons, Bool.and_eq_true, decide_eq_true_eq]
    refine ⟨h, by omega, stepEvtList_all_ge c n (t + 106000) (by omega)⟩


theorem rawCount_eval_0 : BeetleToucher.rawCount 0 = 0 := by
  norm_num [BeetleToucher.rawCount, cround, BeetleToucher.microstepping]

theorem rawCount_eval_45 : BeetleToucher.rawCount 45 = 3840 := by
  norm_num [BeetleToucher.rawCount, cround, BeetleToucher.microstepping]
  decide

theorem rawCount_eval_800 : BeetleToucher.rawCount 800 = 68267 := by
  norm_num [BeetleToucher.rawCount, cround, BeetleToucher.microstepping]
  decide

/-- Claim C1, counterexample: at `deg_increm = 45` the commanded count
`round(2.4 * 45 / 0.9 * 32)` is 3840, but the loop `for (i = 0; i <=
step_increm; i++)` emits 3841 STEP pulses — one more than the claim's "no
more and no fewer". -/
theorem claim_C1_counterexample :
    BeetleToucher.rawCount 45 = 3840
    ∧ (BeetleToucher.rotate 45).2 = some 3841
    ∧ (BeetleToucher.rotate 45).2 ≠ some (BeetleToucher.rawCount 45) := by
  refine ⟨rawCount_eval_45, ?_, ?_⟩
  · show BeetleToucher.loopPulses (BeetleToucher.step_increm 45) = some 3841
    rw [BeetleToucher.step_increm, rawCount_eval_45]
    decide
  · show BeetleToucher.loopPulses (BeetleToucher.step_increm 45) ≠ some (BeetleToucher.rawCount 45)
    rw [BeetleToucher.step_increm, rawCount_eval_45]
    decide

/-- Claim C1 (amended): for a move with nonzero microstep count whose count
fits the 16-bit counter, `rotate` sets DIR to the sign of the commanded angle
and emits `round(2.4 * abs(deg_increm) / 0.9 * 32) + 1` step pulses — one more
than the rounded count, because the loop condition is `i <= step_increm`. -/
theorem claim_C1_amended (deg : ℚ) (_hnz : BeetleToucher.rawCount deg ≠ 0)
    (hfit : BeetleToucher.rawCount deg + 1 < 2 ^ 16) :
    (BeetleToucher.rotate deg).1 = decide (0 < deg)
    ∧ (BeetleToucher.rotate deg).2 = some (BeetleToucher.rawCount deg + 1) := by
  refine ⟨rfl, ?_⟩
  show BeetleToucher.loopPulses (BeetleToucher.step_increm deg) = _
  rw [BeetleToucher.step_increm, Nat.mod_eq_of_lt (by omega), BeetleToucher.loopPulses,
    if_pos hfit]

/-- Claim C1, witness: the amended statement at `deg_increm = 45`. -/
theorem claim_C1_witness :
    BeetleToucher.rawCount 45 ≠ 0
    ∧ BeetleToucher.rawCount 45 + 1 < 2 ^ 16
    ∧ ((BeetleToucher.rotate 45).1 = decide (0 < (45 : ℚ))
        ∧ (BeetleToucher.rotate 45).2 = some (BeetleToucher.rawCount 45 + 1)) :=
  ⟨by rw [rawCount_eval_45]; decide,
   by rw [rawCount_eval_45]; decide,
   claim_C1_amended 45 (by rw [rawCount_eval_45]; decide) (by rw [rawCount_eval_45]; decide)⟩

/-- Claim C2, counterexample: `rotate(0.0)` has `step_increm = 0` yet emits
one STEP pulse (the `i <= 0` loop body runs once), not zero. -/
theorem claim_C2_counterexample :
    BeetleToucher.step_increm 0 = 0
    ∧ (BeetleToucher.rotate 0).2 = some 1
    ∧ (BeetleToucher.rotate 0).2 ≠ some 0 := by
  have h : BeetleToucher.step_increm 0 = 0 := by
    rw [BeetleToucher.step_increm, rawCount_eval_0]
    decide
  refine ⟨h, ?_, ?_⟩
  · show BeetleToucher.loopPulses (BeetleToucher.step_increm 0) = some 1
    rw [h]
    decide
  · show BeetleToucher.loopPulses (BeetleToucher.step_increm 0) ≠ some 0
    rw [h]
    decide

/-- Claim C2 (amended): a command whose computed microstep count is zero does
not return without stepping — `rotate` still emits exactly one STEP pulse,
because the loop condition `i <= step_increm` holds once even at zero. -/
theorem claim_C2_amended (deg : ℚ) (h : BeetleToucher.rawCount deg = 0) :
    (BeetleToucher.rotate deg).2 = some 1 := by
  show BeetleToucher.loopPulses (BeetleToucher.step_increm deg) = some 1
  rw [BeetleToucher.step_increm, h]
  decide

/-- Claim C2, witness: the amended statement at `deg_increm = 0`. -/
theorem claim_C2_witness :
    BeetleToucher.rawCount 0 = 0 ∧ (BeetleToucher.rotate 0).2 = some 1 :=
  ⟨rawCount_eval_0, claim_C2_amended 0 rawCount_eval_0⟩

/-- Claim C3: positioning is absolute.  From a fresh Idle state at
`fullsteps_per_rev=200`, `microstep_multiplier=16`, `gear_ratio=2.4`, the
sequence `move_to(0) → move_to(180) → move_to(-90)` ends with
`position_microsteps = degrees_to_microsteps(-90)` exactly; and in general
the position after any `move_to` equals the converted target regardless of
the prior position (no relative accumulation). -/
theorem claim_C3 :
    ((SpecModel.move_to seqAxisConfig
        ((SpecModel.move_to seqAxisConfig
            ((SpecModel.move_to seqAxisConfig SpecModel.freshIdle 0).1) 180).1)
        (-90)).1).position_microsteps
      = SpecModel.degrees_to_microsteps seqAxisConfig (-90)
    ∧ ∀ (c : SpecModel.AxisConfig) (s : SpecModel.AxisState) (t : ℚ),
        ((SpecModel.move_to c s t).1).position_microsteps
          = SpecModel.degrees_to_microsteps c t :=
  ⟨SpecModel.move_to_position _ _ _, SpecModel.move_to_position⟩

/-- Claim C4: the degree-to-microstep conversion is
`round(deg * gear_ratio / 360 * microsteps_per_rev)`, and for gear ratio 2.4,
400 full steps per revolution (0.9° per full step) and multiplier 32 its
magnitude coincides, for every angle, with the code's step-count expression
`round(2.4 * abs(deg_increm) / 0.9 * 32)` from `rotate`. -/
theorem claim_C4 (deg : ℚ) :
    SpecModel.degrees_to_microsteps btAxisConfig deg
      = cround (deg * 2.4 / 360 * (400 * 32 : ℚ))
    ∧ (SpecModel.degrees_to_microsteps btAxisConfig deg).natAbs
      = BeetleToucher.rawCount deg := by
  have ha : deg * (2.4 : ℚ) / 360 * ((400 * 32 : ℕ) : ℚ) = deg * (256 / 3) := by
    push_cast
    ring_nf
  constructor
  · show cround (deg * (2.4 : ℚ) / 360 * ((SpecModel.microsteps_per_rev btAxisConfig : ℕ) : ℚ))
        = cround (deg * 2.4 / 360 * (400 * 32 : ℚ))
    norm_num [SpecModel.microsteps_per_rev, btAxisConfig]
  · show (cround (deg * (2.4 : ℚ) / 360 * ((SpecModel.microsteps_per_rev btAxisConfig : ℕ) : ℚ))).natAbs
        = (cround ((2.4 : ℚ) * |deg| / 0.9 * ((BeetleToucher.microstepping : ℕ) : ℚ))).toNat
    have hmsr : ((SpecModel.microsteps_per_rev btAxisConfig : ℕ) : ℚ) = ((400 * 32 : ℕ) : ℚ) := by
      norm_num [SpecModel.microsteps_per_rev, btAxisConfig]
    have hb : (2.4 : ℚ) * |deg| / 0.9 * ((BeetleToucher.microstepping : ℕ) : ℚ)
        = |deg| * (256 / 3) := by
      norm_num [BeetleToucher.microstepping]
      ring_nf
    have hc : |deg * ((256 : ℚ) / 3)| = |deg| * (256 / 3) := by
      rw [abs_mul]
      norm_num
    rw [hmsr, ha, hb, ← hc, natAbs_cround]

/-- Claim C5: with the sketch's `microstepping = 32`, `setup` programs the
driver chip in exactly the order: reset latched faults (`resetSettings`),
clear status, set decay mode, set current limit, set microstep resolution,
then enable outputs — with enable strictly last. -/
theorem claim_C5 :
    BeetleToucher.setupDriverOps BeetleToucher.microstepping
      = [DriverOp.resetSettings, DriverOp.clearStatus,
         DriverOp.setDecayMode DecayMode.autoMixed, DriverOp.setCurrentMilliamps 2400,
         DriverOp.setStepMode 32, DriverOp.enableDriver]
    ∧ (BeetleToucher.setupDriverOps BeetleToucher.microstepping).getLast?
        = some DriverOp.enableDriver := by
  decide

/-- Claim C6, counterexample: with the unsupported multiplier 3, `setup` does
not fail — the if-chain has no else branch, so `setStepMode` is silently
skipped and the driver is still fully configured and enabled. -/
theorem claim_C6_counterexample :
    BeetleToucher.setupDriverOps 3
      = [DriverOp.resetSettings, DriverOp.clearStatus,
         DriverOp.setDecayMode DecayMode.autoMixed, DriverOp.setCurrentMilliamps 2400,
         DriverOp.enableDriver]
    ∧ (BeetleToucher.setupDriverOps 3).all (fun op => !op.isSetStepMode) = true
    ∧ DriverOp.enableDriver ∈ BeetleToucher.setupDriverOps 3 := by
  decide

/-- Claim C6 (amended): a microstep multiplier outside
{1,2,4,8,16,32,64,128,256} is silently ignored rather than rejected: no
`setStepMode` call is issued (the chip keeps its reset-default resolution),
no error is raised, and the rest of the programming sequence — including
enabling the outputs — proceeds unchanged. -/
theorem claim_C6_amended (m : ℕ) (hm : m ∉ SpecModel.supportedMicrosteps) :
    BeetleToucher.setupStepModeOps m = []
    ∧ BeetleToucher.setupDriverOps m
      = [DriverOp.resetSettings, DriverOp.clearStatus,
         DriverOp.setDecayMode DecayMode.autoMixed, DriverOp.setCurrentMilliamps 2400,
         DriverOp.enableDriver] := by
  simp only [SpecModel.supportedMicrosteps, List.mem_cons, List.not_mem_nil, or_false,
    not_or] at hm
  obtain ⟨h1, h2, h4, h8, h16, h32, h64, h128, h256⟩ := hm
  have hs : BeetleToucher.setupStepModeOps m = [] := by
    unfold BeetleToucher.setupStepModeOps
    rw [if_neg h1, if_neg h2, if_neg h4, if_neg h8, if_neg h16, if_neg h32, if_neg h64,
      if_neg h128, if_neg h256]
  refine ⟨hs, ?_⟩
  unfold BeetleToucher.setupDriverOps
  rw [hs]
  rfl

/-- Claim C6, witness: the amended statement at multiplier 3. -/
theorem claim_C6_witness :
    (3 : ℕ) ∉ SpecModel.supportedMicrosteps
    ∧ (BeetleToucher.setupStepModeOps 3 = []
       ∧ BeetleToucher.setupDriverOps 3
         = [DriverOp.resetSettings, DriverOp.clearStatus,
            DriverOp.setDecayMode DecayMode.autoMixed, DriverOp.setCurrentMilliamps 2400,
            DriverOp.enableDriver]) :=
  ⟨by decide, claim_C6_amended 3 (by decide)⟩

/-- Claim C7, counterexample: one `loop()` cycle reads the two little-endian
4-byte words in the claimed fixed order, but the program emits no serial
output at all afterwards — in particular no `"ok"` acknowledgment line (the
`Serial.println("ok")` exists only inside a commented-out block). -/
theorem claim_C7_counterexample :
    BeetleToucher.loopCycle [1, 0, 0, 0, 0, 0, 0, 2]
      = some ((1, 33554432), [], [])
    ∧ BeetleToucher.cycleSerialOut [1, 0, 0, 0, 0, 0, 0, 2] = []
    ∧ "ok" ∉ BeetleToucher.cycleSerialOut [1, 0, 0, 0, 0, 0, 0, 2] := by
  refine ⟨by decide, rfl, ?_⟩
  show "ok" ∉ ([] : List String)
  simp

/-- Claim C7 (amended): each command cycle reads exactly two 4-byte
little-endian words in fixed order — first the linear-actuator target, then
the stepper angular increment, byte 0 being the least-significant byte of
each — but no acknowledgment line is echoed after the move: the cycle's
serial output is empty. -/
theorem claim_C7_amended (b0 b1 b2 b3 b4 b5 b6 b7 : ℕ) (rest : List ℕ) :
    BeetleToucher.loopCycle (b0 :: b1 :: b2 :: b3 :: b4 :: b5 :: b6 :: b7 :: rest)
      = some ((b0 + 2 ^ 8 * b1 + 2 ^ 16 * b2 + 2 ^ 24 * b3,
               b4 + 2 ^ 8 * b5 + 2 ^ 16 * b6 + 2 ^ 24 * b7), rest, [])
    ∧ BeetleToucher.cycleSerialOut (b0 :: b1 :: b2 :: b3 :: b4 :: b5 :: b6 :: b7 :: rest)
        = [] :=
  ⟨rfl, rfl⟩

theorem stepEvtList_pair :
    ∀ (n t : ℕ), ∀ p ∈ stepEvtList n t, p.2 = PinEvent.stepHigh →
      (p.1 + 3000, PinEvent.stepLow) ∈ stepEvtList n t
  | 0, _, p, hp, _ => by simp [stepEvtList] at hp
  | n + 1, t, p, hp, hhigh => by
    simp only [stepEvtList, List.mem_cons] at hp ⊢
    rcases hp with h | h | h
    · subst h
      exact Or.inr (Or.inl rfl)
    · subst h
      simp at hhigh
    · exact Or.inr (Or.inr (stepEvtList_pair n (t + 106000) p h hhigh))

/-- Claim C8: for every valid axis configuration and every angle, the round
trip `microsteps_to_degrees(degrees_to_microsteps(d))` differs from `d` by at
most one microstep's angular resolution `360 / (gear_ratio *
microsteps_per_rev)`. -/
theorem claim_C8 (c : SpecModel.AxisConfig) (d : ℚ) (hv : c.valid) :
    |SpecModel.microsteps_to_degrees c (SpecModel.degrees_to_microsteps c d) - d|
      ≤ 360 / (c.gear_ratio * (SpecModel.microsteps_per_rev c : ℚ)) := by
  obtain ⟨hf, hm, hg⟩ := hv
  have hmsr : 0 < (SpecModel.microsteps_per_rev c : ℚ) := by
    have h1 := SpecModel.supported_pos hm
    have h2 : 0 < SpecModel.microsteps_per_rev c := Nat.mul_pos hf h1
    exact_mod_cast h2
  set k : ℚ := c.gear_ratio * (SpecModel.microsteps_per_rev c : ℚ) with hk
  have hkpos : 0 < k := mul_pos hg hmsr
  set x : ℚ := d * c.gear_ratio / 360 * (SpecModel.microsteps_per_rev c : ℚ) with hx
  have hd : d = x * 360 / k := by
    rw [hx, hk]
    field_simp
    ring
  have hmd : SpecModel.microsteps_to_degrees c (SpecModel.degrees_to_microsteps c d)
      = (cround x : ℚ) * 360 / k := by
    unfold SpecModel.microsteps_to_degrees SpecModel.degrees_to_microsteps
    rw [← hx, ← hk]
  have h360k : 0 < 360 / k := by positivity
  have hfac : (cround x : ℚ) * 360 / k - d = ((cround x : ℚ) - x) * (360 / k) := by
    rw [hd]
    field_simp
    ring
  rw [hmd, hfac, abs_mul, abs_of_pos h360k]
  have hb := abs_cround_sub_le x
  calc |(cround x : ℚ) - x| * (360 / k)
      ≤ (1 / 2) * (360 / k) := mul_le_mul_of_nonneg_right hb (le_of_lt h360k)
    _ ≤ 360 / k := by linarith

/-- Claim C8, witness: the round-trip bound at the spec's §8 configuration
(200 full steps, multiplier 16, gear ratio 2.4) and `d = 10`. -/
theorem claim_C8_witness :
    SpecModel.AxisConfig.valid seqAxisConfig
    ∧ |SpecModel.microsteps_to_degrees seqAxisConfig
          (SpecModel.degrees_to_microsteps seqAxisConfig 10) - 10|
        ≤ 360 / (seqAxisConfig.gear_ratio * (SpecModel.microsteps_per_rev seqAxisConfig : ℚ)) :=
  ⟨by norm_num [SpecModel.AxisConfig.valid, SpecModel.supportedMicrosteps, seqAxisConfig],
   claim_C8 seqAxisConfig 10
     (by norm_num [SpecModel.AxisConfig.valid, SpecModel.supportedMicrosteps, seqAxisConfig])⟩

/-- Claim C9: in the pin-level trace of `rotate` the DIR line is written at
t = 1000 ns — 1 µs after the call begins and 1 µs before the first STEP edge
at t = 2000 ns, meeting the ≥ 200 ns settling margin on both sides — and
every STEP rising edge is matched by the falling edge exactly 3000 ns later,
meeting the ≥ 1900 ns minimum high width (`step()` holds STEP high 3 µs;
`setDirection()` delays 1 µs before and after writing DIR). -/
theorem claim_C9 (d : Bool) (n : ℕ) :
    timedEvents (BeetleToucher.rotateActions d n) 0
      = (1000, PinEvent.dirWrite d) :: stepEvtList n 2000
    ∧ (∀ p ∈ timedEvents (BeetleToucher.rotateActions d n) 0,
         p.2 = PinEvent.stepHigh →
           (p.1 + 3000, PinEvent.stepLow) ∈ timedEvents (BeetleToucher.rotateActions d n) 0)
    ∧ ((stepEvtList n 2000).all fun p => decide (1000 + 200 ≤ p.1)) = true
    ∧ 1900 ≤ 3000 ∧ 200 ≤ 1000 := by
  have htr := rotate_trace d n
  refine ⟨htr, ?_, stepEvtList_all_ge (1000 + 200) n 2000 (by omega), by omega, by omega⟩
  intro p hp hhigh
  rw [htr] at hp ⊢
  rcases List.mem_cons.mp hp with h | h
  · rw [h] at hhigh
    simp at hhigh
  · exact List.mem_cons_of_mem _ (stepEvtList_pair n 2000 p h hhigh)

/-- Claim C10, counterexample: at `deg_increm = 800` the raw count 68267
wraps to 2731 in the 16-bit `unsigned int`, but the number of pulses emitted
is 2732, not the wrapped value itself (the loop adds one more). -/
theorem claim_C10_counterexample :
    BeetleToucher.rawCount 800 = 68267
    ∧ BeetleToucher.step_increm 800 = 2731
    ∧ (BeetleToucher.rotate 800).2 = some 2732
    ∧ (BeetleToucher.rotate 800).2 ≠ some (BeetleToucher.step_increm 800) := by
  have h : BeetleToucher.step_increm 800 = 2731 := by
    rw [BeetleToucher.step_increm, rawCount_eval_800]
    decide
  refine ⟨rawCount_eval_800, h, ?_, ?_⟩
  · show BeetleToucher.loopPulses (BeetleToucher.step_increm 800) = some 2732
    rw [h]
    decide
  · show BeetleToucher.loopPulses (BeetleToucher.step_increm 800)
        ≠ some (BeetleToucher.step_increm 800)
    rw [h]
    decide

/-- Claim C10 (amended): `rotate` stores the rounded step count in a 16-bit
`unsigned int`, so when the raw count reaches 2^16 the count is reduced
modulo 2^16 and the pulses emitted number `(raw mod 2^16) + 1` — strictly
fewer than the commanded count, an undocumented hard limit on a single
move's magnitude (reached near 768°, e.g. at 800°). -/
theorem claim_C10_amended (deg : ℚ) (hbig : 2 ^ 16 ≤ BeetleToucher.rawCount deg)
    (hfit : BeetleToucher.rawCount deg % 2 ^ 16 + 1 < 2 ^ 16) :
    (BeetleToucher.rotate deg).2 = some (BeetleToucher.rawCount deg % 2 ^ 16 + 1)
    ∧ BeetleToucher.rawCount deg % 2 ^ 16 + 1 < BeetleToucher.rawCount deg + 1 := by
  constructor
  · show BeetleToucher.loopPulses (BeetleToucher.step_increm deg) = _
    rw [BeetleToucher.step_increm, BeetleToucher.loopPulses, if_pos hfit]
  · omega

/-- Claim C10, witness: the amended statement at `deg_increm = 800`. -/
theorem claim_C10_witness :
    2 ^ 16 ≤ BeetleToucher.rawCount 800
    ∧ BeetleToucher.rawCount 800 % 2 ^ 16 + 1 < 2 ^ 16
    ∧ ((BeetleToucher.rotate 800).2 = some (BeetleToucher.rawCount 800 % 2 ^ 16 + 1)
       ∧ BeetleToucher.rawCount 800 % 2 ^ 16 + 1 < BeetleToucher.rawCount 800 + 1) :=
  ⟨by rw [rawCount_eval_800]; decide,
   by rw [rawCount_eval_800]; decide,
   claim_C10_amended 800 (by rw [rawCount_eval_800]; decide)
     (by rw [rawCount_eval_800]; decide)⟩
